import Mathlib

/-!
Shallow embedding of the stock-trade-by-z repository: the selector runner and
configuration handling of `src/stocktradebyz/select.py`, the OHLCV validation
of `src/fetch_kline.py`, and the indicator `compute_rsv` (whose module is not
present under `src/` and is therefore modelled from the specification).

Conventions: calendar dates are integers (day numbers); prices and volumes are
rationals; Python dictionaries are association lists (first binding wins, as
dictionary keys are unique); Python exceptions are `Except String`.
-/

namespace StockTrade

/-- A scalar JSON value appearing inside a selector parameter mapping. -/
inductive PVal where
  | pStr (s : String)
  | pNum (q : Rat)
  | pBool (b : Bool)
deriving Repr, DecidableEq

/-- A JSON value appearing as a field of one selector configuration entry:
a string, a number, a boolean, or a flat mapping (used for `params`). -/
inductive Val where
  | vStr (s : String)
  | vNum (q : Rat)
  | vBool (b : Bool)
  | vDict (d : List (String × PVal))
deriving Repr, DecidableEq

/-- One selector configuration entry, as the JSON object it is parsed from:
an association list of fields (Python `Dict[str, Any]`). -/
abbrev Config : Type := List (String × Val)

/-- Python `cfg.get(k)`: look a field up, `none` when absent. -/
def cfgGet (cfg : Config) (k : String) : Option Val :=
  cfg.lookup k

/-- Python truth-value testing: the values `""`, `0`, `False` and the empty
mapping are falsy; everything else is truthy. -/
def isFalsy : Val → Bool
  | .vStr s => s.isEmpty
  | .vNum q => q == 0
  | .vBool b => !b
  | .vDict d => d.isEmpty

/-- Modelled from the spec: the module `stocktradebyz.selector` holding the
strategy classes is not under `src/`.  Per §4.2 of the specification the
registry maps exactly the four strategy names to constructors, each accepting
the named parameters listed in the strategy table; any other name is unknown
(in the code, `getattr` on the module raises `AttributeError`). -/
def strategyParams : String → Option (List String)
  | "BBIKDJSelector" =>
      some ["j_threshold", "bbi_min_window", "max_window", "price_range_pct",
            "bbi_q_threshold", "j_q_threshold"]
  | "BBIShortLongSelector" =>
      some ["n_short", "n_long", "m", "bbi_min_window", "max_window",
            "bbi_q_threshold"]
  | "BreakoutVolumeKDJSelector" =>
      some ["j_threshold", "j_q_threshold", "up_threshold", "volume_threshold",
            "offset", "max_window", "price_range_pct"]
  | "PeakKDJSelector" =>
      some ["j_threshold", "max_window", "fluc_threshold", "j_q_threshold",
            "gap_threshold"]
  | _ => none

/-- A constructed selector strategy: its class name together with the named
parameters it was constructed with. -/
structure SelectorInst where
  clsName : String
  params : List (String × PVal)
deriving Repr, DecidableEq

/-- Modelled from the spec: calling the strategy constructor `cls(**params)`.
The constructors accept their named numeric parameters; an unknown parameter
name or a non-numeric parameter value is an invalid parameter and raises
(`TypeError`), which the runner reports as a construction failure. -/
def constructSelector (clsName : String) (allowed : List String)
    (params : List (String × PVal)) : Except String SelectorInst :=
  if params.all (fun p =>
      allowed.contains p.1 && match p.2 with | .pNum _ => true | _ => false) then
    .ok ⟨clsName, params⟩
  else
    .error ("invalid parameter for " ++ clsName)

/-- `instantiate_selector` of `select.py` (lines 73-86): read the `class`
field (missing or falsy raises `ValueError("缺少 class 字段")`), resolve the
class by name (an unrecognized name raises an `ImportError` naming the
offending strategy; a non-string name makes `getattr` raise `TypeError`),
then construct the class with the `params` mapping (default empty) and return
the `alias` field (default: the class name) with the instance. -/
def instantiate_selector (cfg : Config) : Except String (Val × SelectorInst) :=
  match cfgGet cfg "class" with
  | none => .error "缺少 class 字段"
  | some v =>
    if isFalsy v then .error "缺少 class 字段"
    else
      match v with
      | .vStr clsName =>
        match strategyParams clsName with
        | none =>
            .error ("无法加载 stocktradebyz.selector." ++ clsName
              ++ ": module stocktradebyz.selector has no attribute " ++ clsName)
        | some allowed =>
          match cfgGet cfg "params" with
          | none =>
              (constructSelector clsName allowed []).map
                (fun inst => ((cfgGet cfg "alias").getD (.vStr clsName), inst))
          | some (.vDict ps) =>
              (constructSelector clsName allowed ps).map
                (fun inst => ((cfgGet cfg "alias").getD (.vStr clsName), inst))
          | some _ => .error "argument after ** must be a mapping"
      | _ => .error "attribute name must be a string"

/-- Python `str.zfill(width)`: left-fill with `'0'` to the given width; a
leading sign character stays in front of the inserted zeros; a string already
at least `width` long is returned unchanged. -/
def pyZfill (s : String) (width : Nat) : String :=
  if width ≤ s.length then s
  else
    let pad : List Char := List.replicate (width - s.length) '0'
    match s.toList with
    | [] => String.mk pad
    | c :: rest =>
        if c = '+' ∨ c = '-' then String.mk (c :: (pad ++ rest))
        else String.mk (pad ++ (c :: rest))

/-- `_to_ts_code` of `select.py` (lines 89-98): zero-pad the code to six
digits and suffix `.SH` when the original code starts with `60`, `68` or
`9`, else `.SZ`. -/
def to_ts_code_select (code : String) : String :=
  if code.startsWith "60" ∨ code.startsWith "68" ∨ code.startsWith "9" then
    pyZfill code 6 ++ ".SH"
  else
    pyZfill code 6 ++ ".SZ"

/-- `_to_ts_code` of `fetch_kline.py` (lines 113-114): same one-line body as
the copy in `select.py`. -/
def to_ts_code_fetch (code : String) : String :=
  if code.startsWith "60" ∨ code.startsWith "68" ∨ code.startsWith "9" then
    pyZfill code 6 ++ ".SH"
  else
    pyZfill code 6 ++ ".SZ"

/-- The spec's description of the conversion, written from its own words: the
code left-padded with zeros to six digits, suffixed with `.SH` when the
original string starts with `60`, `68` or `9`, and with `.SZ` otherwise. -/
def to_ts_code_spec (code : String) : String :=
  (if code.startsWith "60" ∨ code.startsWith "68" ∨ code.startsWith "9"
   then pyZfill code 6 ++ ".SH" else pyZfill code 6 ++ ".SZ")

/-- One daily OHLCV bar of one instrument. -/
structure Bar where
  date : Int
  open_ : Rat
  high : Rat
  low : Rat
  close : Rat
  volume : Rat
deriving Repr, DecidableEq

/-- The universe: a mapping from instrument code to its OHLCV series
(`Dict[str, pd.DataFrame]` in `select.py`). -/
abbrev Univ : Type := List (String × List Bar)

/-- The runner's activation test, `select.py` line 206: the entry is skipped
exactly when `cfg.get("activate", True) is False`, i.e. when the field holds
the boolean literal `False`; a missing field defaults to active. -/
def isActive (cfg : Config) : Bool :=
  match cfgGet cfg "activate" with
  | some (.vBool false) => false
  | _ => true

/-- One observable event of the runner loop: either the report logged for one
selector (alias, trade date, picks, and the enrichment lines printed for the
picks), or the error logged when one configuration entry is skipped. -/
inductive RunEvent where
  | report (aliasV : Val) (tradeDate : Int) (picks : List String) (info : List String)
  | skipError (cfg : Config) (msg : String)
deriving Repr, DecidableEq

/-- The body of the runner loop for one activated entry (`select.py` lines
208-225): instantiate the selector (a failure is logged and the entry is
skipped), evaluate it on the universe for the trade date, and log the report;
when there are picks, `get_stock_basic_info` additionally prints, per pick,
enrichment data obtained from the data provider (modelled by the abstract
`query` function applied to the module token and the Tushare-format code). -/
def evalActiveCfg (query : String → String → String)
    (sel : SelectorInst → Int → Univ → List String)
    (token : String) (tradeDate : Int) (data : Univ) (cfg : Config) :
    List RunEvent :=
  match instantiate_selector cfg with
  | .error e => [.skipError cfg e]
  | .ok (al, inst) =>
      let picks := sel inst tradeDate data
      let info :=
        if picks.isEmpty then []
        else picks.map (fun c => query token (to_ts_code_select c))
      [.report al tradeDate picks info]

/-- The runner loop of `main` in `select.py` (lines 205-225): iterate the
configuration entries in order, skipping the ones whose `activate` field is
the literal `False`.  The selector classes being absent from `src/`, the
dispatched `selector.select` call is the abstract parameter `sel`. -/
def runSelectors (query : String → String → String)
    (sel : SelectorInst → Int → Univ → List String)
    (token : String) (tradeDate : Int) (data : Univ) :
    List Config → List RunEvent
  | [] => []
  | cfg :: rest =>
    if isActive cfg then
      evalActiveCfg query sel token tradeDate data cfg
        ++ runSelectors query sel token tradeDate data rest
    else
      runSelectors query sel token tradeDate data rest

/-- Largest element of a list, `none` when empty (a left fold of `max`). -/
def listMax {β : Type} [LinearOrder β] : List β → Option β
  | [] => none
  | x :: xs => some (xs.foldl max x)

/-- Smallest element of a list, `none` when empty (a left fold of `min`). -/
def listMin {β : Type} [LinearOrder β] : List β → Option β
  | [] => none
  | x :: xs => some (xs.foldl min x)

/-- `df["date"].max()` of one frame: the latest bar date, `none` for an
empty frame. -/
def frameMaxDate (f : List Bar) : Option Int :=
  listMax (f.map (fun b => b.date))

/-- The trade-date computation of `main` in `select.py` (lines 193-199): the
`--date` argument when given, otherwise
`max(df["date"].max() for df in data.values())`, the latest bar date across
the loaded frames (the frames of a run are nonempty; an empty frame, whose
pandas maximum would be `NaT`, is skipped here). -/
def computeTradeDate (dateArg : Option Int) (data : Univ) : Option Int :=
  match dateArg with
  | some d => some d
  | none => listMax (data.filterMap (fun p => frameMaxDate p.2))

/-- All bar dates appearing in the universe. -/
def allDates (data : Univ) : List Int :=
  (data.map (fun p => p.2.map (fun b => b.date))).flatten

/-- One row of a fetched OHLCV frame as `validate` of `fetch_kline.py` sees
it: its (possibly missing) date key together with the rest of the row. -/
abbrev FrameRow (α : Type) : Type := Option Int × α

/-- `drop_duplicates(subset="date")`: keep the first row of each date key,
in order (pandas treats missing dates as duplicates of one another). -/
def dedupAux {α : Type} (seen : List (Option Int)) :
    List (FrameRow α) → List (FrameRow α)
  | [] => []
  | r :: rs =>
    if r.1 ∈ seen then dedupAux seen rs
    else r :: dedupAux (r.1 :: seen) rs

/-- Duplicate-date removal over a whole frame. -/
def dedupByDate {α : Type} (df : List (FrameRow α)) : List (FrameRow α) :=
  dedupAux [] df

/-- The `sort_values("date")` order on date keys: missing dates (`NaT`)
sort after every real date. -/
def dateLe : Option Int → Option Int → Prop
  | some a, some b => a ≤ b
  | some _, none => True
  | none, some _ => False
  | none, none => True

instance : DecidableRel dateLe := fun a b =>
  match a, b with
  | some a, some b => inferInstanceAs (Decidable (a ≤ b))
  | some _, none => inferInstanceAs (Decidable True)
  | none, some _ => inferInstanceAs (Decidable False)
  | none, none => inferInstanceAs (Decidable True)

/-- Row comparison by date key. -/
def rowLe {α : Type} (x y : FrameRow α) : Prop := dateLe x.1 y.1

instance {α : Type} : DecidableRel (rowLe (α := α)) := fun x y =>
  inferInstanceAs (Decidable (dateLe x.1 y.1))

instance {α : Type} : IsTotal (FrameRow α) rowLe :=
  ⟨fun x y => by
    obtain ⟨xd, xp⟩ := x
    obtain ⟨yd, yp⟩ := y
    cases xd <;> cases yd
    · exact Or.inl trivial
    · exact Or.inr trivial
    · exact Or.inl trivial
    · exact le_total _ _⟩

instance {α : Type} : IsTrans (FrameRow α) rowLe :=
  ⟨fun x y z hxy hyz => by
    obtain ⟨xd, xp⟩ := x
    obtain ⟨yd, yp⟩ := y
    obtain ⟨zd, zp⟩ := z
    cases xd <;> cases yd <;> cases zd <;>
      first
        | trivial
        | exact hxy.elim
        | exact hyz.elim
        | exact le_trans hxy hyz⟩

/-- `validate` of `fetch_kline.py` (lines 310-316): drop duplicate-date
rows, sort by date, then raise on any missing date and on any date after
`pd.Timestamp.today()` (the `today` parameter); otherwise return the
cleaned frame. -/
def validate {α : Type} (today : Int) (df : List (FrameRow α)) :
    Except String (List (FrameRow α)) :=
  let df2 := List.insertionSort rowLe (dedupByDate df)
  if df2.any (fun r => r.1.isNone) then .error "存在缺失日期！"
  else if df2.any (fun r =>
      match r.1 with
      | some d => decide (today < d)
      | none => false) then .error "数据包含未来日期，可能抓取错误！"
  else .ok df2

/-- The trailing `n`-bar window ending at index `i` of a series, the bars at
indices `i - n + 1` through `i`. -/
def windowSlice (series : List Bar) (n i : Nat) : List Bar :=
  (series.take (i + 1)).drop (i + 1 - n)

/-- Modelled from the spec (§4.1): the module defining `compute_rsv` (the
`Selector` indicator library imported by the tests) is not under `src/`.
`computeRSV(series, n)` is, at index `i`,
`(close[i] − min(low[i-n+1..i])) / (max(high[i-n+1..i]) − min(low[i-n+1..i])) × 100`,
undefined for `i < n-1` and undefined when the rolling high/low range is
zero. -/
def compute_rsv (series : List Bar) (n : Nat) : List (Option Rat) :=
  (List.range series.length).map (fun i =>
    if i + 1 < n then none
    else
      match listMax ((windowSlice series n i).map (fun b => b.high)),
            listMin ((windowSlice series n i).map (fun b => b.low)),
            series[i]? with
      | some mx, some mn, some b =>
          if mx = mn then none
          else some ((b.close - mn) / (mx - mn) * 100)
      | _, _, _ => none)

/-- Projection of a run's events to the reports' (alias, trade date, Pick
Set) triples, dropping the enrichment output and the skip messages. -/
def pickReports : List RunEvent → List (Val × Int × List String)
  | [] => []
  | .report a d p _ :: rest => (a, d, p) :: pickReports rest
  | .skipError _ _ :: rest => pickReports rest

end StockTrade

namespace StockTrade

theorem runSelectors_append (query : String → String → String)
    (sel : SelectorInst → Int → Univ → List String) (token : String)
    (tradeDate : Int) (data : Univ) (l1 l2 : List Config) :
    runSelectors query sel token tradeDate data (l1 ++ l2)
      = runSelectors query sel token tradeDate data l1
        ++ runSelectors query sel token tradeDate data l2 := by
  induction l1 with
  | nil => simp [runSelectors]
  | cons c rest ih =>
    simp only [List.cons_append, runSelectors]
    cases h : isActive c
    · simp [h, ih]
    · simp [h, ih]

theorem pickReports_append (l1 l2 : List RunEvent) :
    pickReports (l1 ++ l2) = pickReports l1 ++ pickReports l2 := by
  induction l1 with
  | nil => rfl
  | cons e rest ih => cases e <;> simp [pickReports, ih]

theorem pickReports_runSelectors (query : String → String → String)
    (sel : SelectorInst → Int → Univ → List String) (token : String)
    (tradeDate : Int) (data : Univ) (cfgs : List Config) :
    pickReports (runSelectors query sel token tradeDate data cfgs)
      = (cfgs.filter isActive).filterMap
          (fun cfg => (instantiate_selector cfg).toOption.map
            (fun p => (p.1, tradeDate, sel p.2 tradeDate data))) := by
  induction cfgs with
  | nil => rfl
  | cons c rest ih =>
    simp only [runSelectors, List.filter_cons]
    cases h : isActive c
    · simp only [h, Bool.false_eq_true, if_false, ih, cond_false]
    · simp only [h, if_true, cond_true]
      rw [pickReports_append, List.filterMap_cons]
      cases he : instantiate_selector c with
      | error e => simp [evalActiveCfg, he, pickReports, ih, Except.toOption]
      | ok p =>
        obtain ⟨a, inst⟩ := p
        simp [evalActiveCfg, he, pickReports, ih, Except.toOption]

end StockTrade

namespace StockTrade

theorem instantiate_alias_default (cfg : Config) (s : String) (a : Val)
    (inst : SelectorInst) (halias : cfgGet cfg "alias" = none)
    (hclass : cfgGet cfg "class" = some (Val.vStr s))
    (hok : instantiate_selector cfg = .ok (a, inst)) : a = Val.vStr s := by
  simp only [instantiate_selector, hclass, halias, Option.getD_none] at hok
  split at hok
  · simp at hok
  · cases hsp : strategyParams s <;> rw [hsp] at hok
    · simp at hok
    · cases hp : cfgGet cfg "params" <;> rw [hp] at hok
      · unfold constructSelector at hok
        simp only [] at hok
        split at hok <;> simp [Except.map] at hok
        exact hok.1.symm
      · rename_i v
        cases v
        · simp at hok
        · simp at hok
        · simp at hok
        · unfold constructSelector at hok
          simp only [] at hok
          split at hok <;> simp [Except.map] at hok
          exact hok.1.symm

end StockTrade

namespace StockTrade

/-- C1: for every configuration list, an activated entry whose selector
instantiation fails yields exactly one logged error event for that entry and
is skipped, while the entries before and after it are processed exactly as
they otherwise would be — one bad entry never aborts the run. -/
theorem runner_skips_failed_entry (query : String → String → String)
    (sel : SelectorInst → Int → Univ → List String) (token : String)
    (tradeDate : Int) (data : Univ) (pre post : List Config) (bad : Config)
    (e : String) (hact : isActive bad = true)
    (herr : instantiate_selector bad = .error e) :
    runSelectors query sel token tradeDate data (pre ++ bad :: post)
      = runSelectors query sel token tradeDate data pre
        ++ RunEvent.skipError bad e
          :: runSelectors query sel token tradeDate data post := by
  rw [runSelectors_append]
  simp [runSelectors, hact, evalActiveCfg, herr]

/-- Witness for C1 at a concrete run: an unknown strategy name in the first
entry is reported and skipped, and the following entry still runs. -/
theorem runner_skips_failed_entry_witness :
    runSelectors (fun _ _ => "info") (fun _ _ _ => ["000001"]) "tok" 0 []
        ([] ++ [("class", Val.vStr "Nope")]
          :: [[("class", Val.vStr "PeakKDJSelector")]])
      = runSelectors (fun _ _ => "info") (fun _ _ _ => ["000001"]) "tok" 0 [] []
        ++ RunEvent.skipError [("class", Val.vStr "Nope")]
            ("无法加载 stocktradebyz.selector." ++ "Nope"
              ++ ": module stocktradebyz.selector has no attribute " ++ "Nope")
          :: runSelectors (fun _ _ => "info") (fun _ _ _ => ["000001"]) "tok" 0 []
              [[("class", Val.vStr "PeakKDJSelector")]] :=
  runner_skips_failed_entry (fun _ _ => "info") (fun _ _ _ => ["000001"]) "tok" 0 []
    [] [[("class", Val.vStr "PeakKDJSelector")]] [("class", Val.vStr "Nope")]
    _ rfl rfl

/-- C2: `instantiate_selector` raises a configuration error naming the
offending strategy when the strategy name resolves to no known selector
class, and reports the missing field when there is no strategy name at all;
in neither case does it return a selector. -/
theorem instantiate_selector_errors (cfg : Config) :
    (∀ s : String, cfgGet cfg "class" = some (Val.vStr s) → s ≠ "" →
        strategyParams s = none →
        instantiate_selector cfg
          = .error ("无法加载 stocktradebyz.selector." ++ s
              ++ ": module stocktradebyz.selector has no attribute " ++ s))
    ∧ (cfgGet cfg "class" = none →
        instantiate_selector cfg = .error "缺少 class 字段") := by
  constructor
  · intro s hclass hs hsp
    have hf : isFalsy (Val.vStr s) = false := by
      simp only [isFalsy, Bool.eq_false_iff, Ne, String.isEmpty_iff]
      exact hs
    simp only [instantiate_selector, hclass, hf, Bool.false_eq_true, if_false, hsp]
  · intro hclass
    simp only [instantiate_selector, hclass]

/-- Witness for C2 at a concrete configuration: the unknown name
`NoSuchSelector` is reported in the error message, and an entry with no
`class` field yields the missing-field error. -/
theorem instantiate_selector_errors_witness :
    instantiate_selector [("class", Val.vStr "NoSuchSelector")]
      = .error ("无法加载 stocktradebyz.selector." ++ "NoSuchSelector"
          ++ ": module stocktradebyz.selector has no attribute " ++ "NoSuchSelector")
    ∧ instantiate_selector [("alias", Val.vStr "x")] = .error "缺少 class 字段" :=
  ⟨(instantiate_selector_errors [("class", Val.vStr "NoSuchSelector")]).1
      "NoSuchSelector" rfl (by decide) rfl,
    (instantiate_selector_errors [("alias", Val.vStr "x")]).2 rfl⟩

/-- C3: the runner processes exactly the configuration entries whose
activation flag is true or absent; an entry whose flag is the boolean
`false` is neither constructed nor evaluated and contributes no event. -/
theorem runner_activation_flag (query : String → String → String)
    (sel : SelectorInst → Int → Univ → List String) (token : String)
    (tradeDate : Int) (data : Univ) (pre post : List Config) (cfg : Config) :
    ((cfgGet cfg "activate" = none ∨ cfgGet cfg "activate" = some (Val.vBool true)) →
        runSelectors query sel token tradeDate data (pre ++ cfg :: post)
          = runSelectors query sel token tradeDate data pre
            ++ evalActiveCfg query sel token tradeDate data cfg
            ++ runSelectors query sel token tradeDate data post)
    ∧ (cfgGet cfg "activate" = some (Val.vBool false) →
        runSelectors query sel token tradeDate data (pre ++ cfg :: post)
          = runSelectors query sel token tradeDate data pre
            ++ runSelectors query sel token tradeDate data post) := by
  constructor
  · intro h
    have ha : isActive cfg = true := by
      unfold isActive
      rcases h with h | h <;> rw [h]
    rw [runSelectors_append]
    simp [runSelectors, ha]
  · intro h
    have ha : isActive cfg = false := by
      unfold isActive
      rw [h]
    rw [runSelectors_append]
    simp [runSelectors, ha]

/-- Witness for C3 at concrete runs: an entry with no `activate` field is
processed, and an entry with `activate = false` contributes nothing. -/
theorem runner_activation_flag_witness :
    (runSelectors (fun _ _ => "") (fun _ _ _ => []) "" 0 []
        ([] ++ [("class", Val.vStr "PeakKDJSelector")] :: [])
      = runSelectors (fun _ _ => "") (fun _ _ _ => []) "" 0 [] []
        ++ evalActiveCfg (fun _ _ => "") (fun _ _ _ => []) "" 0 []
            [("class", Val.vStr "PeakKDJSelector")]
        ++ runSelectors (fun _ _ => "") (fun _ _ _ => []) "" 0 [] [])
    ∧ (runSelectors (fun _ _ => "") (fun _ _ _ => []) "" 0 []
        ([] ++ [("class", Val.vStr "PeakKDJSelector"), ("activate", Val.vBool false)] :: [])
      = runSelectors (fun _ _ => "") (fun _ _ _ => []) "" 0 [] []
        ++ runSelectors (fun _ _ => "") (fun _ _ _ => []) "" 0 [] []) :=
  ⟨(runner_activation_flag (fun _ _ => "") (fun _ _ _ => []) "" 0 [] [] []
      [("class", Val.vStr "PeakKDJSelector")]).1 (Or.inl rfl),
    (runner_activation_flag (fun _ _ => "") (fun _ _ _ => []) "" 0 [] [] []
      [("class", Val.vStr "PeakKDJSelector"), ("activate", Val.vBool false)]).2 rfl⟩

/-- C4: the runner emits exactly one report (alias, trade date, Pick Set)
per successfully constructed activated entry, in configuration-list order,
and the alias defaults to the strategy class name when none is configured;
the output is a function of the inputs, hence stable across runs. -/
theorem runner_report_order (query : String → String → String)
    (sel : SelectorInst → Int → Univ → List String) (token : String)
    (tradeDate : Int) (data : Univ) (cfgs : List Config) :
    pickReports (runSelectors query sel token tradeDate data cfgs)
      = (cfgs.filter isActive).filterMap
          (fun cfg => (instantiate_selector cfg).toOption.map
            (fun p => (p.1, tradeDate, sel p.2 tradeDate data)))
    ∧ ∀ cfg ∈ cfgs, ∀ s a inst, cfgGet cfg "alias" = none →
        cfgGet cfg "class" = some (Val.vStr s) →
        instantiate_selector cfg = .ok (a, inst) → a = Val.vStr s :=
  ⟨pickReports_runSelectors query sel token tradeDate data cfgs,
    fun cfg _ s a inst ha hc hok => instantiate_alias_default cfg s a inst ha hc hok⟩

/-- Witness for C4 at a concrete run: one report per good entry, in order,
with the class name as the default alias. -/
theorem runner_report_order_witness :
    pickReports (runSelectors (fun _ _ => "") (fun _ _ _ => ["600000"]) "" 5 []
        [[("class", Val.vStr "PeakKDJSelector")], [("class", Val.vStr "Nope")],
          [("class", Val.vStr "BBIKDJSelector")]])
      = [(Val.vStr "PeakKDJSelector", 5, ["600000"]),
          (Val.vStr "BBIKDJSelector", 5, ["600000"])]
    ∧ (Val.vStr "PeakKDJSelector" : Val) = Val.vStr "PeakKDJSelector" :=
  ⟨((runner_report_order (fun _ _ => "") (fun _ _ _ => ["600000"]) "" 5 []
      [[("class", Val.vStr "PeakKDJSelector")], [("class", Val.vStr "Nope")],
        [("class", Val.vStr "BBIKDJSelector")]]).1).trans (by decide),
    (runner_report_order (fun _ _ => "") (fun _ _ _ => ["600000"]) "" 5 []
      [[("class", Val.vStr "PeakKDJSelector")]]).2
      [("class", Val.vStr "PeakKDJSelector")] (by simp) "PeakKDJSelector" _
      ⟨"PeakKDJSelector", []⟩ rfl rfl rfl⟩

/-- C6: unrecognized configuration fields are ignored — two configuration
entries that agree on `class`, `alias`, `params` and `activate` receive the
same (alias, selector) instantiation outcome and the same activation
decision, whatever other fields either of them carries. -/
theorem config_unrecognized_fields (c1 c2 : Config)
    (h : ∀ k ∈ (["class", "alias", "params", "activate"] : List String),
        cfgGet c1 k = cfgGet c2 k) :
    instantiate_selector c1 = instantiate_selector c2
      ∧ isActive c1 = isActive c2 := by
  have hc := h "class" (by simp)
  have ha := h "alias" (by simp)
  have hp := h "params" (by simp)
  have hac := h "activate" (by simp)
  constructor
  · simp only [instantiate_selector, hc, ha, hp]
  · simp only [isActive, hac]

/-- Witness for C6 at concrete entries: an extra unrecognized field `note`
changes neither the instantiation nor the activation decision. -/
theorem config_unrecognized_fields_witness :
    instantiate_selector
        [("class", Val.vStr "PeakKDJSelector"), ("note", Val.vNum 7)]
      = instantiate_selector [("class", Val.vStr "PeakKDJSelector")]
    ∧ isActive [("class", Val.vStr "PeakKDJSelector"), ("note", Val.vNum 7)]
      = isActive [("class", Val.vStr "PeakKDJSelector")] :=
  config_unrecognized_fields
    [("class", Val.vStr "PeakKDJSelector"), ("note", Val.vNum 7)]
    [("class", Val.vStr "PeakKDJSelector")] (by decide)

/-- C8: the Pick Sets of a run do not depend on the module-level data
provider token of `select.py` (modelled as the explicit `token` state
threaded only into the enrichment lookups): any two token values yield the
same (alias, trade date, Pick Set) reports on identical configuration and
universe. -/
theorem picks_independent_of_global_token (query : String → String → String)
    (sel : SelectorInst → Int → Univ → List String) (tradeDate : Int)
    (data : Univ) (cfgs : List Config) (t1 t2 : String) :
    pickReports (runSelectors query sel t1 tradeDate data cfgs)
      = pickReports (runSelectors query sel t2 tradeDate data cfgs) := by
  rw [pickReports_runSelectors, pickReports_runSelectors]

end StockTrade

namespace StockTrade

theorem foldl_max_le_of_le {β : Type} [LinearOrder β] (l : List β) {b : β} (x : β)
    (h : b ≤ x) : b ≤ l.foldl max x := by
  induction l generalizing x with
  | nil => exact h
  | cons y ys ih => exact ih (max x y) (le_trans h (le_max_left x y))

theorem mem_le_foldl_max {β : Type} [LinearOrder β] (xs : List β) (x a : β)
    (ha : a ∈ xs) : a ≤ xs.foldl max x := by
  induction xs generalizing x with
  | nil => cases ha
  | cons y ys ih =>
    simp only [List.foldl_cons]
    rcases List.mem_cons.mp ha with rfl | h
    · exact foldl_max_le_of_le ys (max x a) (le_max_right x a)
    · exact ih (max x y) h

theorem foldl_max_mem {β : Type} [LinearOrder β] (xs : List β) (x : β) :
    xs.foldl max x = x ∨ xs.foldl max x ∈ xs := by
  induction xs generalizing x with
  | nil => exact Or.inl rfl
  | cons y ys ih =>
    simp only [List.foldl_cons]
    rcases ih (max x y) with h | h
    · rcases max_choice x y with hm | hm
      · exact Or.inl (by rw [h, hm])
      · exact Or.inr (by rw [h, hm]; exact List.mem_cons_self y ys)
    · exact Or.inr (List.mem_cons_of_mem y h)

theorem listMax_mem {β : Type} [LinearOrder β] {l : List β} {m : β}
    (hm : listMax l = some m) : m ∈ l := by
  cases l with
  | nil => simp [listMax] at hm
  | cons x xs =>
    simp only [listMax, Option.some.injEq] at hm
    subst hm
    rcases foldl_max_mem xs x with h | h
    · rw [h]; exact List.mem_cons_self x xs
    · exact List.mem_cons_of_mem x h

theorem le_listMax_of_mem {β : Type} [LinearOrder β] {l : List β} {a m : β}
    (ha : a ∈ l) (hm : listMax l = some m) : a ≤ m := by
  cases l with
  | nil => cases ha
  | cons x xs =>
    simp only [listMax, Option.some.injEq] at hm
    subst hm
    rcases List.mem_cons.mp ha with rfl | h
    · exact foldl_max_le_of_le xs _ le_rfl
    · exact mem_le_foldl_max xs x a h

theorem listMax_isSome {β : Type} [LinearOrder β] {l : List β} (h : l ≠ []) :
    ∃ m, listMax l = some m := by
  cases l with
  | nil => exact absurd rfl h
  | cons x xs => exact ⟨xs.foldl max x, rfl⟩

theorem foldl_min_ge_of_ge {β : Type} [LinearOrder β] (l : List β) {b : β} (x : β)
    (h : x ≤ b) : l.foldl min x ≤ b := by
  induction l generalizing x with
  | nil => exact h
  | cons y ys ih => exact ih (min x y) (le_trans (min_le_left x y) h)

theorem foldl_min_le_mem {β : Type} [LinearOrder β] (xs : List β) (x a : β)
    (ha : a ∈ xs) : xs.foldl min x ≤ a := by
  induction xs generalizing x with
  | nil => cases ha
  | cons y ys ih =>
    simp only [List.foldl_cons]
    rcases List.mem_cons.mp ha with rfl | h
    · exact foldl_min_ge_of_ge ys (min x a) (min_le_right x a)
    · exact ih (min x y) h

theorem foldl_min_mem {β : Type} [LinearOrder β] (xs : List β) (x : β) :
    xs.foldl min x = x ∨ xs.foldl min x ∈ xs := by
  induction xs generalizing x with
  | nil => exact Or.inl rfl
  | cons y ys ih =>
    simp only [List.foldl_cons]
    rcases ih (min x y) with h | h
    · rcases min_choice x y with hm | hm
      · exact Or.inl (by rw [h, hm])
      · exact Or.inr (by rw [h, hm]; exact List.mem_cons_self y ys)
    · exact Or.inr (List.mem_cons_of_mem y h)

theorem listMin_mem {β : Type} [LinearOrder β] {l : List β} {m : β}
    (hm : listMin l = some m) : m ∈ l := by
  cases l with
  | nil => simp [listMin] at hm
  | cons x xs =>
    simp only [listMin, Option.some.injEq] at hm
    subst hm
    rcases foldl_min_mem xs x with h | h
    · rw [h]; exact List.mem_cons_self x xs
    · exact List.mem_cons_of_mem x h

theorem listMin_le_of_mem {β : Type} [LinearOrder β] {l : List β} {a m : β}
    (ha : a ∈ l) (hm : listMin l = some m) : m ≤ a := by
  cases l with
  | nil => cases ha
  | cons x xs =>
    simp only [listMin, Option.some.injEq] at hm
    subst hm
    rcases List.mem_cons.mp ha with rfl | h
    · exact foldl_min_ge_of_ge xs _ le_rfl
    · exact foldl_min_le_mem xs x a h

theorem report_date_of_mem (query : String → String → String)
    (sel : SelectorInst → Int → Univ → List String) (token : String)
    (tradeDate : Int) (data : Univ) (cfgs : List Config) (a : Val) (d2 : Int)
    (picks info : List String)
    (hmem : RunEvent.report a d2 picks info
      ∈ runSelectors query sel token tradeDate data cfgs) : d2 = tradeDate := by
  induction cfgs with
  | nil => cases hmem
  | cons c rest ih =>
    simp only [runSelectors] at hmem
    split at hmem
    · rcases List.mem_append.mp hmem with hm | hm
      · unfold evalActiveCfg at hm
        split at hm
        · simp at hm
        · simp only [List.mem_singleton] at hm
          injection hm with h1 h2 h3
      · exact ih hm
    · exact ih hmem

end StockTrade

namespace StockTrade

/-- C9: when no `--date` argument is supplied, the trade date the runner
uses is the latest bar date across all loaded series, and every report of
the resulting run carries exactly that date. -/
theorem default_trade_date (data : Univ) (hne : data ≠ [])
    (hframes : ∀ p ∈ data, p.2 ≠ []) :
    ∃ D, computeTradeDate none data = some D
      ∧ D ∈ allDates data
      ∧ (∀ d ∈ allDates data, d ≤ D)
      ∧ ∀ (query : String → String → String)
          (sel : SelectorInst → Int → Univ → List String) (token : String)
          (cfgs : List Config) (a : Val) (d2 : Int) (picks info : List String),
          RunEvent.report a d2 picks info
              ∈ runSelectors query sel token D data cfgs → d2 = D := by
  have hL : data.filterMap (fun p => frameMaxDate p.2) ≠ [] := by
    cases data with
    | nil => exact absurd rfl hne
    | cons p rest =>
      have hp : p.2 ≠ [] := hframes p (List.mem_cons_self p rest)
      have hex : ∃ m, frameMaxDate p.2 = some m := by
        unfold frameMaxDate
        apply listMax_isSome
        simp [hp]
      obtain ⟨m, hm⟩ := hex
      simp [List.filterMap_cons, hm]
  obtain ⟨D, hD⟩ := listMax_isSome hL
  refine ⟨D, ?_, ?_, ?_, ?_⟩
  · simp only [computeTradeDate]
    exact hD
  · have hmem := listMax_mem hD
    obtain ⟨p, hp, hpD⟩ := List.mem_filterMap.mp hmem
    have hDp : D ∈ p.2.map (fun b => b.date) := listMax_mem hpD
    exact List.mem_flatten.mpr
      ⟨p.2.map (fun b => b.date), List.mem_map_of_mem _ hp, hDp⟩
  · intro d hd
    obtain ⟨l, hl, hdl⟩ := List.mem_flatten.mp hd
    obtain ⟨p, hp, rfl⟩ := List.mem_map.mp hl
    obtain ⟨m, hm⟩ := listMax_isSome (l := p.2.map (fun b => b.date))
      (by intro h; rw [h] at hdl; cases hdl)
    have hdm : d ≤ m := le_listMax_of_mem hdl hm
    have hmL : m ∈ data.filterMap (fun p => frameMaxDate p.2) :=
      List.mem_filterMap.mpr ⟨p, hp, hm⟩
    exact le_trans hdm (le_listMax_of_mem hmL hD)
  · intro query sel token cfgs a d2 picks info hmem
    exact report_date_of_mem query sel token D data cfgs a d2 picks info hmem

/-- Witness for C9 at a concrete universe of one instrument with bar dates
1 and 5. -/
theorem default_trade_date_witness :
    ∃ D, computeTradeDate none
          [("000001", [⟨1, 1, 1, 1, 1, 1⟩, ⟨5, 1, 1, 1, 1, 1⟩])] = some D
      ∧ D ∈ allDates [("000001", [⟨1, 1, 1, 1, 1, 1⟩, ⟨5, 1, 1, 1, 1, 1⟩])]
      ∧ (∀ d ∈ allDates [("000001", [⟨1, 1, 1, 1, 1, 1⟩, ⟨5, 1, 1, 1, 1, 1⟩])],
          d ≤ D)
      ∧ ∀ (query : String → String → String)
          (sel : SelectorInst → Int → Univ → List String) (token : String)
          (cfgs : List Config) (a : Val) (d2 : Int) (picks info : List String),
          RunEvent.report a d2 picks info
              ∈ runSelectors query sel token D
                  [("000001", [⟨1, 1, 1, 1, 1, 1⟩, ⟨5, 1, 1, 1, 1, 1⟩])] cfgs →
            d2 = D :=
  default_trade_date [("000001", [⟨1, 1, 1, 1, 1, 1⟩, ⟨5, 1, 1, 1, 1, 1⟩])]
    (by decide) (by decide)

end StockTrade

namespace StockTrade

/-- C10: the `_to_ts_code` copies in `select.py` and `fetch_kline.py` are
extensionally equal, and both return the code zero-padded to six digits
with suffix `.SH` exactly when the original string starts with `60`, `68`
or `9`, and `.SZ` otherwise. -/
theorem to_ts_code_equiv (code : String) :
    to_ts_code_select code = to_ts_code_fetch code
      ∧ to_ts_code_select code = to_ts_code_spec code :=
  ⟨rfl, rfl⟩

theorem dedupAux_subset {α : Type} (seen : List (Option Int))
    (l : List (FrameRow α)) : ∀ r ∈ dedupAux seen l, r ∈ l := by
  induction l generalizing seen with
  | nil => intro r h; cases h
  | cons x xs ih =>
    intro r h
    simp only [dedupAux] at h
    split at h
    · exact List.mem_cons_of_mem x (ih seen r h)
    · rcases List.mem_cons.mp h with rfl | h2
      · exact List.mem_cons_self _ _
      · exact List.mem_cons_of_mem _ (ih _ r h2)

theorem dedupAux_keys {α : Type} (seen : List (Option Int))
    (l : List (FrameRow α)) :
    ((dedupAux seen l).map (fun r => r.1)).Nodup
      ∧ ∀ k ∈ (dedupAux seen l).map (fun r => r.1), k ∉ seen := by
  induction l generalizing seen with
  | nil => exact ⟨List.nodup_nil, by intro k h; cases h⟩
  | cons x xs ih =>
    simp only [dedupAux]
    split
    · exact ih seen
    · rename_i hx
      obtain ⟨ihn, ihs⟩ := ih (x.1 :: seen)
      constructor
      · simp only [List.map_cons, List.nodup_cons]
        exact ⟨fun hk => (ihs x.1 hk) (List.mem_cons_self _ _), ihn⟩
      · intro k hk
        simp only [List.map_cons, List.mem_cons] at hk
        rcases hk with rfl | hk
        · exact hx
        · intro hks
          exact (ihs k hk) (List.mem_cons_of_mem _ hks)

theorem dedupAux_covers {α : Type} (seen : List (Option Int))
    (l : List (FrameRow α)) (k : Option Int) (hk : k ∈ l.map (fun r => r.1))
    (hs : k ∉ seen) : k ∈ (dedupAux seen l).map (fun r => r.1) := by
  induction l generalizing seen with
  | nil => cases hk
  | cons x xs ih =>
    simp only [List.map_cons, List.mem_cons] at hk
    simp only [dedupAux]
    split
    · rename_i hx
      rcases hk with rfl | hk
      · exact absurd hx hs
      · exact ih seen hk hs
    · rcases hk with rfl | hk
      · simp
      · by_cases hxk : k = x.1
        · subst hxk; simp
        · have hmem : k ∈ (dedupAux (x.1 :: seen) xs).map (fun r => r.1) :=
            ih _ hk (by simp [hxk, hs])
          simp [hmem]

theorem validate_any_key {α : Type} (df : List (FrameRow α))
    (p : Option Int → Bool) :
    ((List.insertionSort rowLe (dedupByDate df)).any (fun r => p r.1) = true)
      ↔ ∃ r ∈ df, p r.1 = true := by
  rw [List.any_eq_true]
  constructor
  · rintro ⟨r, hr, hp⟩
    exact ⟨r, dedupAux_subset [] df r ((List.mem_insertionSort rowLe).mp hr), hp⟩
  · rintro ⟨r, hr, hp⟩
    have hk : r.1 ∈ df.map (fun r => r.1) := List.mem_map_of_mem _ hr
    have hcov := dedupAux_covers [] df r.1 hk (by simp)
    obtain ⟨r2, hr2, hk2⟩ := List.mem_map.mp hcov
    refine ⟨r2, (List.mem_insertionSort rowLe).mpr hr2, ?_⟩
    rw [hk2]
    exact hp

end StockTrade

namespace StockTrade

/-- C5: `validate` succeeds exactly when no date entry is missing and no
date lies after today (the ingestion timestamp); such invalid input aborts
the operation.  On success it returns the input rows with duplicate dates
removed, covering every input date, with all dates present, unique and
strictly increasing. -/
theorem validate_spec {α : Type} (today : Int) (df : List (FrameRow α)) :
    ((∃ out, validate today df = .ok out) ↔
        ((∀ r ∈ df, r.1.isSome = true)
          ∧ (∀ r ∈ df, ∀ d : Int, r.1 = some d → d ≤ today)))
    ∧ ∀ out, validate today df = .ok out →
        (∀ r ∈ out, r ∈ df)
        ∧ (∀ r ∈ df, ∃ r2 ∈ out, r2.1 = r.1)
        ∧ (∀ r ∈ out, r.1.isSome = true)
        ∧ List.Pairwise
            (fun r s => ∀ a b : Int, r.1 = some a → s.1 = some b → a < b)
            out := by
  have hA := validate_any_key df (fun k => k.isNone)
  have hB := validate_any_key df
    (fun k => match k with | some d => decide (today < d) | none => false)
  constructor
  · constructor
    · rintro ⟨out, hout⟩
      simp only [validate] at hout
      split at hout
      · cases hout
      · split at hout
        · cases hout
        · rename_i hA0 hB0
          constructor
          · intro r hr
            cases hr1 : r.1 with
            | some d => rfl
            | none => exact absurd (hA.mpr ⟨r, hr, by rw [hr1]; rfl⟩) hA0
          · intro r hr d hd
            by_contra hgt
            rw [not_le] at hgt
            exact hB0 (hB.mpr ⟨r, hr, by rw [hd]; exact decide_eq_true hgt⟩)
    · rintro ⟨h1, h2⟩
      refine ⟨List.insertionSort rowLe (dedupByDate df), ?_⟩
      simp only [validate]
      have hAf : (List.insertionSort rowLe (dedupByDate df)).any
          (fun r => r.1.isNone) = false := by
        cases hx : (List.insertionSort rowLe (dedupByDate df)).any
            (fun r => r.1.isNone) with
        | false => rfl
        | true =>
          obtain ⟨r, hr, hp⟩ := hA.mp hx
          have hs := h1 r hr
          cases hr1 : r.1 with
          | none =>
            rw [hr1] at hs
            have hs2 : false = true := hs
            cases hs2
          | some d =>
            rw [hr1] at hp
            have hp2 : false = true := hp
            cases hp2
      have hBf : (List.insertionSort rowLe (dedupByDate df)).any
          (fun r => match r.1 with
            | some d => decide (today < d)
            | none => false) = false := by
        cases hx : (List.insertionSort rowLe (dedupByDate df)).any
            (fun r => match r.1 with
              | some d => decide (today < d)
              | none => false) with
        | false => rfl
        | true =>
          obtain ⟨r, hr, hp⟩ := hB.mp hx
          cases hr1 : r.1 with
          | none =>
            rw [hr1] at hp
            have hp3 : false = true := hp
            cases hp3
          | some d =>
            rw [hr1] at hp
            have hp2 : decide (today < d) = true := hp
            have hlt := of_decide_eq_true hp2
            exact absurd (h2 r hr d hr1) (not_le.mpr hlt)
      rw [hAf, hBf]
      simp
  · intro out hout
    simp only [validate] at hout
    split at hout
    · cases hout
    · split at hout
      · cases hout
      · rename_i hA0 hB0
        injection hout with hout
        subst hout
        refine ⟨?_, ?_, ?_, ?_⟩
        · intro r hr
          exact dedupAux_subset [] df r ((List.mem_insertionSort rowLe).mp hr)
        · intro r hr
          have hk : r.1 ∈ df.map (fun r => r.1) := List.mem_map_of_mem _ hr
          have hcov := dedupAux_covers [] df r.1 hk (by simp)
          obtain ⟨r2, hr2, hk2⟩ := List.mem_map.mp hcov
          exact ⟨r2, (List.mem_insertionSort rowLe).mpr hr2, hk2⟩
        · intro r hr
          cases hr1 : r.1 with
          | some d => rfl
          | none =>
            exact absurd (List.any_eq_true.mpr ⟨r, hr, by rw [hr1]; rfl⟩) hA0
        · have hsorted : List.Pairwise rowLe
              (List.insertionSort rowLe (dedupByDate df)) :=
            List.sorted_insertionSort rowLe (dedupByDate df)
          have hperm : (List.insertionSort rowLe (dedupByDate df)).Perm
              (dedupByDate df) :=
            List.perm_insertionSort rowLe (dedupByDate df)
          have hnd : ((List.insertionSort rowLe (dedupByDate df)).map
              (fun r => r.1)).Nodup :=
            ((hperm.map (fun r => r.1)).nodup_iff).mpr (dedupAux_keys [] df).1
          have hnd2 : List.Pairwise (fun a b => a ≠ b)
              ((List.insertionSort rowLe (dedupByDate df)).map (fun r => r.1)) :=
            hnd
          have hne : List.Pairwise (fun r s : FrameRow α => r.1 ≠ s.1)
              (List.insertionSort rowLe (dedupByDate df)) :=
            List.pairwise_map.mp hnd2
          refine (hsorted.and hne).imp ?_
          rintro r s ⟨hle, hnes⟩ a b hra hsb
          have hab : a ≤ b := by
            have hdle : dateLe r.1 s.1 := hle
            rw [hra, hsb] at hdle
            exact hdle
          refine lt_of_le_of_ne hab ?_
          intro heq
          apply hnes
          rw [hra, hsb, heq]

/-- Witness for C5 at a concrete frame with a duplicate date and unsorted
rows: validation succeeds and returns the cleaned, strictly increasing
frame. -/
theorem validate_spec_witness :
    (∀ r ∈ [((some 1 : Option Int), 1), (some 2, 3), (some 3, 0)],
        r ∈ [((some 3 : Option Int), 0), (some 1, 1), (some 3, 2), (some 2, 3)])
    ∧ (∀ r ∈ [((some 3 : Option Int), 0), (some 1, 1), (some 3, 2), (some 2, 3)],
        ∃ r2 ∈ [((some 1 : Option Int), 1), (some 2, 3), (some 3, 0)],
          r2.1 = r.1)
    ∧ (∀ r ∈ [((some 1 : Option Int), 1), (some 2, 3), (some 3, 0)],
        r.1.isSome = true)
    ∧ List.Pairwise
        (fun r s => ∀ a b : Int, r.1 = some a → s.1 = some b → a < b)
        [((some 1 : Option Int), 1), (some 2, 3), (some 3, 0)] :=
  (validate_spec 10
      [((some 3 : Option Int), 0), (some 1, 1), (some 3, 2), (some 2, 3)]).2
    [((some 1 : Option Int), 1), (some 2, 3), (some 3, 0)] rfl

end StockTrade

namespace StockTrade

theorem mem_of_getElem_eq_some {β : Type} {l : List β} {i : Nat} {a : β}
    (h : l[i]? = some a) : a ∈ l := by
  have hi : i < l.length := by
    by_contra hn
    rw [List.getElem?_eq_none (by omega)] at h
    cases h
  rw [List.getElem?_eq_getElem hi] at h
  injection h with h
  exact h ▸ List.getElem_mem hi

theorem windowSlice_getElem_last (series : List Bar) (n i : Nat) (hn : 1 ≤ n)
    (hni : n - 1 ≤ i) (hilen : i < series.length) :
    (windowSlice series n i)[n - 1]? = some series[i] := by
  unfold windowSlice
  rw [List.getElem?_drop]
  have harith : i + 1 - n + (n - 1) = i := by omega
  rw [harith, List.getElem?_take]
  simp [Nat.lt_succ_self, List.getElem?_eq_getElem hilen]

theorem windowSlice_subset (series : List Bar) (n i : Nat) :
    ∀ b ∈ windowSlice series n i, b ∈ series := fun _ hb =>
  List.mem_of_mem_take (List.mem_of_mem_drop hb)

/-- C7 (modelled from the spec; the indicator module defining `compute_rsv`
is absent from `src/`): over a series whose bars satisfy
low ≤ close ≤ high, for a positive window `n` and an index `i ≥ n − 1`
within the series, whenever the trailing rolling maximum of `high` differs
from the rolling minimum of `low`, `compute_rsv` at `i` equals
`(close[i] − min low) / (max high − min low) × 100` and lies in `[0, 100]`.
Earlier indices and zero-range windows yield `none` by definition. -/
theorem compute_rsv_spec (series : List Bar) (n i : Nat) (mx mn : Rat)
    (hinv : ∀ b ∈ series, b.low ≤ b.close ∧ b.close ≤ b.high)
    (hn : 1 ≤ n) (hilen : i < series.length) (hni : n - 1 ≤ i)
    (hmax : listMax ((windowSlice series n i).map (fun b => b.high)) = some mx)
    (hmin : listMin ((windowSlice series n i).map (fun b => b.low)) = some mn)
    (hne : mx ≠ mn) :
    (compute_rsv series n)[i]?
        = some (some ((series[i].close - mn) / (mx - mn) * 100))
      ∧ 0 ≤ (series[i].close - mn) / (mx - mn) * 100
      ∧ (series[i].close - mn) / (mx - mn) * 100 ≤ 100 := by
  have hbw : series[i] ∈ windowSlice series n i :=
    mem_of_getElem_eq_some (windowSlice_getElem_last series n i hn hni hilen)
  have hbs : series[i] ∈ series := List.getElem_mem hilen
  have hclo : mn ≤ series[i].close := by
    have hlow : mn ≤ series[i].low :=
      listMin_le_of_mem (List.mem_map_of_mem _ hbw) hmin
    exact le_trans hlow (hinv _ hbs).1
  have hchi : series[i].close ≤ mx := by
    have hhigh : series[i].high ≤ mx :=
      le_listMax_of_mem (List.mem_map_of_mem _ hbw) hmax
    exact le_trans (hinv _ hbs).2 hhigh
  have hlt : mn < mx := lt_of_le_of_ne (le_trans hclo hchi) (Ne.symm hne)
  have hpos : (0 : Rat) < mx - mn := sub_pos.mpr hlt
  refine ⟨?_, ?_, ?_⟩
  · simp only [compute_rsv]
    rw [List.getElem?_map, List.getElem?_range hilen, Option.map_some']
    rw [if_neg (by omega)]
    rw [hmax, hmin, List.getElem?_eq_getElem hilen]
    show some (if mx = mn then none
        else some ((series[i].close - mn) / (mx - mn) * 100))
      = some (some ((series[i].close - mn) / (mx - mn) * 100))
    rw [if_neg hne]
  · exact mul_nonneg (div_nonneg (sub_nonneg.mpr hclo) hpos.le) (by norm_num)
  · have hq : (series[i].close - mn) / (mx - mn) ≤ 1 :=
      (div_le_one hpos).mpr (sub_le_sub_right hchi mn)
    calc (series[i].close - mn) / (mx - mn) * 100 ≤ 1 * 100 :=
          mul_le_mul_of_nonneg_right hq (by norm_num)
      _ = 100 := one_mul 100

/-- Witness for C7 at a one-bar series (close 1, high 2, low 0) with
window 1: the RSV entry is 50 and lies in `[0, 100]`. -/
theorem compute_rsv_spec_witness :
    (compute_rsv [⟨0, 1, 2, 0, 1, 5⟩] 1)[0]?
        = some (some (((1 : Rat) - 0) / (2 - 0) * 100))
      ∧ (0 : Rat) ≤ ((1 : Rat) - 0) / (2 - 0) * 100
      ∧ ((1 : Rat) - 0) / (2 - 0) * 100 ≤ 100 :=
  compute_rsv_spec [⟨0, 1, 2, 0, 1, 5⟩] 1 0 2 0 (by decide) (by decide)
    (by decide) (by decide) rfl rfl (by decide)

end StockTrade
